import Mathlib

/-!
The daemon regular-screenshot: session gating, capture, upload and the poll loop.

A shallow embedding of `main.go`, `serve.go` and `samba.go`.

* Go strings are Lean `String`s; the parsing helpers work on `List Char`.
* External commands (`loginctl`, `xrandr`, `ffmpeg`), the SMB library and the
  clock are inputs: every function takes the answers of the outside world as
  arguments and returns what it computes together with the calls it makes.
* A Go function that can `panic` returns `Go α`.
-/

namespace RegularScreenshot

/-! ## Go runtime and standard library -/

/-- Outcome of a Go call: a normal return, or a panic that nobody recovers. -/
inductive Go (α : Type) where
  | ret (a : α) : Go α
  | panic (err : String) : Go α
  deriving DecidableEq, Repr

deriving instance DecidableEq for Except

/-- What `exec.Cmd.Output` gives back: the captured standard output and the error. -/
structure CmdOutput where
  output : String
  err : Option String
  deriving DecidableEq, Repr

/-- `strings.Split(s, sep)` for a one-character separator: `n` separators give `n + 1` pieces. -/
def splitChars (sep : Char) : List Char → List (List Char)
  | [] => [[]]
  | c :: cs =>
    if c = sep then [] :: splitChars sep cs
    else
      match splitChars sep cs with
      | [] => [[c]]
      | p :: ps => (c :: p) :: ps

/-- `unicode.IsSpace`. -/
def isSpace (c : Char) : Bool :=
  let n := c.toNat
  n == 0x09 || n == 0x0A || n == 0x0B || n == 0x0C || n == 0x0D || n == 0x20 ||
  n == 0x85 || n == 0xA0 || n == 0x1680 || (0x2000 ≤ n && n ≤ 0x200A) ||
  n == 0x2028 || n == 0x2029 || n == 0x202F || n == 0x205F || n == 0x3000

/-- `strings.Fields`: the maximal runs of non-space characters, in order. -/
def fieldsChars : List Char → List (List Char)
  | [] => []
  | c :: cs =>
    if isSpace c then fieldsChars cs
    else
      match cs with
      | [] => [[c]]
      | d :: _ =>
        if isSpace d then [c] :: fieldsChars cs
        else
          match fieldsChars cs with
          | [] => [[c]]
          | f :: fs => (c :: f) :: fs

/-- The characters `0` to `9` (what `\d` and the decimal parsers of `strconv` accept). -/
def isDigit (c : Char) : Bool := 48 ≤ c.toNat && c.toNat ≤ 57

/-- Value of a string of decimal digits, most significant first. -/
def digitsValue (ds : List Char) : Nat :=
  ds.foldl (fun acc c => 10 * acc + (c.toNat - 48)) 0

/-- `strconv.ParseInt(s, 10, 64)`: `none` stands for a non-nil error (syntax or range). -/
def ParseInt (s : List Char) : Option Int :=
  let neg : Bool := s.head? == some '-'
  let ds : List Char := if s.head? == some '+' || s.head? == some '-' then s.drop 1 else s
  if ds = [] then none
  else if !ds.all isDigit then none
  else
    let n := digitsValue ds
    if neg then (if n ≤ 2 ^ 63 then some (-(n : Int)) else none)
    else (if n < 2 ^ 63 then some (n : Int) else none)

/-! ## serve.go: isDesktopActive -/

/-- One iteration of the loop over the lines of `loginctl show-session`. -/
def isUnlockedLocal.step (flags : Bool × Bool) (line : List Char) : Bool × Bool :=
  let fields := splitChars '=' line
  if fields.length = 2 ∧ fields.getD 0 [] = "Remote".toList then
    (decide (fields.getD 1 [] = "no\n".toList), flags.2)
  else if fields.length = 2 ∧ fields.getD 0 [] = "LockedHint".toList then
    (flags.1, decide (fields.getD 1 [] = "no\n".toList))
  else flags

/-- The closure `isUnlockedLocal` of `isDesktopActive`: `showSession` answers
`loginctl show-session <id>`; a failing command is only logged. -/
def isUnlockedLocal (showSession : Int → CmdOutput) (sessionID : Int) : Bool :=
  let output := (showSession sessionID).output
  let lines := splitChars '\n' output.toList
  let flags := lines.foldl isUnlockedLocal.step (false, false)
  !flags.1 && !flags.2

/-- The loop of `isDesktopActive` over `lines[1:]`. -/
def isDesktopActive.loop (showSession : Int → CmdOutput) (desktopUsername : String) :
    List (List Char) → Bool
  | [] => false
  | line :: rest =>
    let fields := fieldsChars line
    if 5 ≤ fields.length ∧ fields.getD 2 [] = desktopUsername.toList then
      match ParseInt (fields.getD 0 []) with
      | some sessionID =>
        if isUnlockedLocal showSession sessionID then true
        else isDesktopActive.loop showSession desktopUsername rest
      | none => isDesktopActive.loop showSession desktopUsername rest
    else isDesktopActive.loop showSession desktopUsername rest

/-- `isDesktopActive`: `listSessions` answers `loginctl list-sessions`. -/
def isDesktopActive (listSessions : CmdOutput) (showSession : Int → CmdOutput)
    (desktopUsername : String) : Go Bool :=
  match listSessions.err with
  | some err => Go.panic err
  | none =>
    Go.ret (isDesktopActive.loop showSession desktopUsername
      ((splitChars '\n' listSessions.output.toList).drop 1))

/-! ## serve.go: takeScrrenshot -/

/-- Drop a literal from the front of a string; `none` when the string does not start with it. -/
def stripLeading : List Char → List Char → Option (List Char)
  | [], s => some s
  | _ :: _, [] => none
  | p :: ps, c :: cs => if p = c then stripLeading ps cs else none

/-- The regular expression `current (\d+) x (\d+)` matched at the very start of `s`:
the two captured groups. Both `\d+` are greedy, and a shorter first group can
never match, since it would have to be followed by a blank. -/
def matchHere (s : List Char) : Option (List Char × List Char) :=
  match stripLeading "current ".toList s with
  | none => none
  | some r =>
    let w := r.takeWhile isDigit
    if w = [] then none
    else
      match stripLeading " x ".toList (r.dropWhile isDigit) with
      | none => none
      | some r2 =>
        let h := r2.takeWhile isDigit
        if h = [] then none else some (w, h)

/-- `re.FindStringSubmatch(line)`: the groups of the leftmost match, `none` for a nil result. -/
def FindStringSubmatch : List Char → Option (List Char × List Char)
  | [] => none
  | c :: cs =>
    match matchHere (c :: cs) with
    | some m => some m
    | none => FindStringSubmatch cs

/-- The value `strconv.Atoi` returns, its error ignored as in `screenWidth, _ = ...`:
zero on a syntax error, the nearest bound of `int` on a range error. -/
def Atoi (s : List Char) : Int :=
  let neg : Bool := s.head? == some '-'
  let ds : List Char := if s.head? == some '+' || s.head? == some '-' then s.drop 1 else s
  if ds = [] then 0
  else if !ds.all isDigit then 0
  else
    let n := digitsValue ds
    if neg then (if n ≤ 2 ^ 63 then -(n : Int) else -(2 ^ 63 : Int))
    else (if n < 2 ^ 63 then (n : Int) else (2 ^ 63 - 1 : Int))

/-- The character of a decimal digit. -/
def digitChar (d : Nat) : Char := Char.ofNat (48 + d)

/-- Decimal digits of `n`, least significant first (`fuel` bounds the recursion). -/
def natDigitsRev : Nat → Nat → List Char
  | 0, _ => []
  | fuel + 1, n =>
    if n < 10 then [digitChar n] else digitChar (n % 10) :: natDigitsRev fuel (n / 10)

/-- Decimal digits of `n`, most significant first. -/
def natDigits (n : Nat) : List Char := (natDigitsRev (n + 1) n).reverse

/-- The verb `%d` of `fmt.Sprintf`. -/
def formatInt (x : Int) : List Char :=
  if x < 0 then '-' :: natDigits x.natAbs else natDigits x.natAbs

/-- The loop of `takeScrrenshot` over the lines of `xrandr`: width and height of
the first line that matches, `0, 0` when none does. -/
def screenSize : List (List Char) → Int × Int
  | [] => (0, 0)
  | line :: rest =>
    match FindStringSubmatch line with
    | some m => (Atoi m.1, Atoi m.2)
    | none => screenSize rest

/-- The read end of the standard output pipe of a started `ffmpeg` process. -/
structure Reader where
  args : List String
  deriving DecidableEq, Repr

/-- Calls to the outside world and console lines, in the order they happen. -/
inductive Event where
  | log (msg : String)
  | ffmpegStart (args : List String)
  | dial (host : String)
  | dialContext (user password : Option String)
  | mount (share : String)
  | mkdirAll (path : String)
  | create (path : String)
  | copy (src : Reader)
  | closeFile
  | closeReader (r : Reader)
  deriving DecidableEq, Repr

/-- A computation together with the events it produced. -/
structure Run (α : Type) where
  events : List Event
  result : α
  deriving DecidableEq, Repr

/-- The command line of the capture process. -/
def ffmpegArgs (screenWidth screenHeight : Int) : List String :=
  ["-f", "x11grab", "-video_size",
   String.mk (formatInt screenWidth ++ 'x' :: formatInt screenHeight),
   "-i", ":0.0", "-vframes", "1", "-f", "image2pipe", "-vcodec", "png", "-"]

/-- `takeScrrenshot`: `xrandr` answers the geometry query, `stdoutPipe` and `start`
are the errors of `cmd.StdoutPipe()` and `cmd.Start()` of ffmpeg; the result is
either the error or the stream. The goroutine that waits for ffmpeg and prints
its exit error runs beside the loop and is left out of the trace. -/
def takeScrrenshot (xrandr : CmdOutput) (stdoutPipe start : Option String) :
    Run (Go (Except String Reader)) :=
  match xrandr.err with
  | some err => ⟨[], Go.panic err⟩
  | none =>
    let size := screenSize (splitChars '\n' xrandr.output.toList)
    let args := ffmpegArgs size.1 size.2
    match stdoutPipe with
    | some err => ⟨[], Go.ret (Except.error err)⟩
    | none =>
      match start with
      | some err => ⟨[Event.ffmpegStart args], Go.ret (Except.error err)⟩
      | none => ⟨[Event.ffmpegStart args], Go.ret (Except.ok ⟨args⟩)⟩

/-! ## path/filepath and time.Format -/

/-- One path element of `filepath.Clean`; `stack` holds the kept elements, last first. -/
def cleanStep (rooted : Bool) (stack : List (List Char)) (comp : List Char) :
    List (List Char) :=
  if comp = [] ∨ comp = ['.'] then stack
  else if comp = ['.', '.'] then
    match stack with
    | top :: rest =>
      if top = ['.', '.'] then (if rooted then stack else comp :: stack) else rest
    | [] => if rooted then [] else [comp]
  else comp :: stack

/-- `filepath.Clean` on Unix. -/
def Clean (path : List Char) : List Char :=
  if path = [] then ['.']
  else
    let rooted : Bool := path.head? == some '/'
    let stack := (splitChars '/' path).foldl (cleanStep rooted) []
    let body := List.intercalate ['/'] stack.reverse
    if rooted then '/' :: body else if body = [] then ['.'] else body

/-- `filepath.Join` on Unix: empty leading elements are dropped, the rest is
joined with slashes and cleaned. -/
def Join (elem : List String) : String :=
  match elem.dropWhile (fun e => e == "") with
  | [] => ""
  | rest => String.mk (Clean (List.intercalate ['/'] (rest.map String.toList)))

/-- `filepath.Dir` on Unix: all but the last element of the path, cleaned. -/
def Dir (path : String) : String :=
  String.mk (Clean (path.toList.reverse.dropWhile (fun c => c != '/')).reverse)

/-- The fields of a `time.Time` in the local zone, as `Date`, `Clock` and `Nanosecond` give them. -/
structure Time where
  year : Int
  month : Nat
  day : Nat
  hour : Nat
  minute : Nat
  second : Nat
  nanosecond : Nat
  deriving DecidableEq, Repr

/-- The ranges of the fields of a `time.Time`. -/
def Time.Valid (t : Time) : Prop :=
  1 ≤ t.month ∧ t.month ≤ 12 ∧ 1 ≤ t.day ∧ t.day ≤ 31 ∧ t.hour ≤ 23 ∧
  t.minute ≤ 59 ∧ t.second ≤ 59 ∧ t.nanosecond < 1000000000

instance (t : Time) : Decidable t.Valid := by unfold Time.Valid; infer_instance

/-- `appendInt` of package time: sign, then the decimal digits padded with zeros to `width`. -/
def appendInt (x : Int) (width : Nat) : List Char :=
  let ds := natDigits x.natAbs
  let padded := List.replicate (width - ds.length) '0' ++ ds
  if x < 0 then '-' :: padded else padded

/-- `t.Format("2006-01-02T150405.png")`: long year, zero month, zero day, the
letter T, hour, zero minute, zero second, and the literal `.png`. The layout of
the code has no colons, while the comment above `UploadScreenshot` writes it
with colons between hour, minute and second. -/
def Time.Format (t : Time) : String :=
  String.mk (appendInt t.year 4 ++ '-' :: appendInt t.month 2 ++ '-' :: appendInt t.day 2 ++
    'T' :: appendInt t.hour 2 ++ appendInt t.minute 2 ++ appendInt t.second 2 ++ ".png".toList)

/-! ## samba.go -/

/-- The configuration fields of `_Samba` (the session and mount handles live in the SMB library). -/
structure _Samba where
  Host : String
  Share : String
  Path : String
  Username : String
  Password : String
  deriving DecidableEq, Repr

/-- `NewSamba`. -/
def NewSamba (host share path : String) : _Samba :=
  { Host := host, Share := share, Path := path, Username := "", Password := "" }

/-- `WithCredentials`. -/
def _Samba.WithCredentials (s : _Samba) (username password : String) : _Samba :=
  { s with Username := username, Password := password }

/-- The `Initiator` of the `smb2.Dialer` that `Start` builds: `none` for the
default dialer, the user and password of the `NTLMInitiator` otherwise. -/
def _Samba.initiator (s : _Samba) : Option (String × String) :=
  if s.Username ≠ "" ∨ s.Password ≠ "" then some (s.Username, s.Password) else none

/-- The errors of the network and of the SMB server during `Start`. -/
structure ShareEnv where
  dial : Option String
  dialContext : Option String
  mount : Option String
  mkdirAll : Option String
  deriving DecidableEq, Repr

/-- `Start`: dial, authenticate, mount, and create the directory when `Path` is not empty. -/
def _Samba.Start (s : _Samba) (env : ShareEnv) : Run (Option String) :=
  let d := Event.dialContext (s.initiator.map Prod.fst) (s.initiator.map Prod.snd)
  match env.dial with
  | some err => ⟨[Event.dial s.Host], some err⟩
  | none =>
    match env.dialContext with
    | some err => ⟨[Event.dial s.Host, d], some err⟩
    | none =>
      match env.mount with
      | some err => ⟨[Event.dial s.Host, d, Event.mount s.Share], some err⟩
      | none =>
        if s.Path ≠ "" then
          ⟨[Event.dial s.Host, d, Event.mount s.Share,
            Event.mkdirAll (Join [s.Host, s.Path])], env.mkdirAll⟩
        else ⟨[Event.dial s.Host, d, Event.mount s.Share], none⟩

/-- `UploadScreenshot`: `now` is `time.Now()`, `create` and `copy` are the errors
of `s.mount.Create` and `io.Copy`. -/
def _Samba.UploadScreenshot (s : _Samba) (now : Time) (create copy : Option String)
    (input : Reader) : Run (Option String) :=
  let filename := now.Format
  let path := Join [s.Path, filename]
  match create with
  | some err => ⟨[Event.create path], some err⟩
  | none => ⟨[Event.create path, Event.copy input, Event.closeFile], copy⟩

/-! ## main.go and serve.go: validation and the poll loop -/

/-- The values that viper hands to `PreRunE` and `serve`. -/
structure Config where
  samba_host : String
  samba_username : String
  samba_password : String
  samba_share : String
  folder : String
  desktop_username : String
  interval : Int
  verbose : Bool
  deriving DecidableEq, Repr

/-- `rootCmd.PreRunE`: `none` is a nil error. -/
def PreRunE (cfg : Config) : Option String :=
  if cfg.samba_host = "" then some "Samba host is required"
  else if cfg.desktop_username = "" then some "Desktop username is required"
  else if cfg.interval < 1 then some "Interval must be greater than 0"
  else none

/-- `checkDependencies`: `lookPath` is the error of `exec.LookPath`. -/
def checkDependencies (lookPath : String → Option String) : Option String :=
  match lookPath "ffmpeg" with
  | some err => some ("Required dependencies are not installed\n" ++ err)
  | none =>
    match lookPath "xrandr" with
    | some err => some ("Required dependencies are not installed\n" ++ err)
    | none => none

/-- What the outside world answers during one timer tick. -/
structure Tick where
  listSessions : CmdOutput
  showSession : Int → CmdOutput
  xrandr : CmdOutput
  stdoutPipe : Option String
  start : Option String
  now : Time
  create : Option String
  copy : Option String

/-- The body of `for range timer.C` run over the ticks that the timer delivers.
The result is `some err` when a panic ended the goroutine, and with it the process. -/
def serve.loop (samba : _Samba) (desktopUsername : String) : List Tick → Run (Option String)
  | [] => ⟨[], none⟩
  | t :: ts =>
    match isDesktopActive t.listSessions t.showSession desktopUsername with
    | Go.panic err => ⟨[], some err⟩
    | Go.ret false => serve.loop samba desktopUsername ts
    | Go.ret true =>
      let shot := takeScrrenshot t.xrandr t.stdoutPipe t.start
      match shot.result with
      | Go.panic err => ⟨shot.events, some err⟩
      | Go.ret (Except.error err) =>
        let rest := serve.loop samba desktopUsername ts
        ⟨shot.events ++ Event.log ("Error taking screenshot: " ++ err) :: rest.events,
          rest.result⟩
      | Go.ret (Except.ok reader) =>
        let up := samba.UploadScreenshot t.now t.create t.copy reader
        let logs :=
          match up.result with
          | some err => [Event.log ("Error uploading screenshot: " ++ err)]
          | none => []
        let rest := serve.loop samba desktopUsername ts
        ⟨shot.events ++ up.events ++ logs ++ Event.closeReader reader :: rest.events,
          rest.result⟩

/-- The outside world of one run of the daemon; `ticks` are the timer ticks
delivered before the interrupt signal. -/
structure World where
  lookPath : String → Option String
  share : ShareEnv
  ticks : List Tick

/-- The `_Samba` value that `serve` builds from the configuration. -/
def serve.samba (cfg : Config) : _Samba :=
  let samba := NewSamba cfg.samba_host cfg.samba_share cfg.folder
  if cfg.samba_username ≠ "" ∧ cfg.samba_password ≠ "" then
    samba.WithCredentials cfg.samba_username cfg.samba_password
  else samba

/-- Two's complement wrap-around to a signed 64-bit integer. -/
def wrapInt64 (x : Int) : Int := (x + 2 ^ 63) % 2 ^ 64 - 2 ^ 63

/-- `time.Duration(interval) * time.Second`: the period of the ticker in
nanoseconds, an `int64` product that wraps around (`int` has 64 bits). -/
def tickerDuration (interval : Int) : Int := wrapInt64 (interval * 1000000000)

/-- `serve`: the goroutine is run to the interrupt, then the main function returns.
`time.NewTicker` panics on a period that is not positive, before the goroutine starts. -/
def serve (cfg : Config) (w : World) : Run (Go (Option String)) :=
  match checkDependencies w.lookPath with
  | some err => ⟨[], Go.panic err⟩
  | none =>
    let verbose := if cfg.verbose then [Event.log "Verbose mode enabled"] else []
    let samba := serve.samba cfg
    if cfg.interval < 1 then ⟨verbose, Go.ret (some "Interval must be greater than 0")⟩
    else if tickerDuration cfg.interval ≤ 0 then
      ⟨verbose, Go.panic "non-positive interval for NewTicker"⟩
    else
      let st := samba.Start w.share
      match st.result with
      | some err => ⟨verbose ++ Event.log "Starting the application" :: st.events, Go.panic err⟩
      | none =>
        let lp := serve.loop samba cfg.desktop_username w.ticks
        let running := verbose ++ Event.log "Starting the application" :: st.events ++
          Event.log "Samba started" :: lp.events
        match lp.result with
        | some err => ⟨running, Go.panic err⟩
        | none =>
          ⟨running ++ [Event.log "Received an interrupt, stopping the application"],
            Go.ret none⟩

/-- `rootCmd.Execute()`: cobra runs the hook `PreRunE` first and runs `RunE`, here
`serve`, only when the hook returned nil; the error of either is returned. -/
def rootCmd.Execute (cfg : Config) (w : World) : Run (Go (Option String)) :=
  match PreRunE cfg with
  | some err => ⟨[], Go.ret (some err)⟩
  | none => serve cfg w

/-- The path of the `Create` call behind an event, which is one call of `UploadScreenshot`. -/
def Event.createPath : Event → Option String
  | Event.create path => some path
  | _ => none

/-- A line matches `current <digits> x <digits>`: somewhere in it stands the word
`current`, a blank, one or more digits, ` x `, and one or more digits. -/
def GeometryLine (line : List Char) : Prop :=
  ∃ pre w h suf : List Char,
    line = pre ++ ("current ".toList ++ (w ++ (" x ".toList ++ (h ++ suf)))) ∧
    w ≠ [] ∧ h ≠ [] ∧ (∀ c ∈ w, isDigit c = true) ∧ (∀ c ∈ h, isDigit c = true)

/-! ## Sample inputs -/

/-- A listing with one graphical session of user `u`. -/
def sampleListing : String := "SESSION UID USER SEAT TTY\n1 1000 u seat0 tty2\n"

/-- A session detail of a local, unlocked session. -/
def sampleDetail : String := "Id=1\nRemote=no\nActive=yes\nLockedHint=no\n"

/-- An `xrandr` output. -/
def sampleXrandr : String :=
  "Screen 0: minimum 8 x 8, current 4480 x 1440, maximum 32767 x 32767\nDP-1 disconnected\n"

/-- A moment in time. -/
def sampleTime : Time :=
  { year := 2024, month := 7, day := 8, hour := 9, minute := 44, second := 17,
    nanosecond := 5 }

/-- A tick on which everything works. -/
def goodTick : Tick :=
  { listSessions := ⟨sampleListing, none⟩, showSession := fun _ => ⟨sampleDetail, none⟩,
    xrandr := ⟨sampleXrandr, none⟩, stdoutPipe := none, start := none, now := sampleTime,
    create := none, copy := none }

/-- A tick on which `xrandr` prints no geometry and ffmpeg cannot be started. -/
def noGeometryTick : Tick :=
  { listSessions := ⟨sampleListing, none⟩, showSession := fun _ => ⟨sampleDetail, none⟩,
    xrandr := ⟨"no geometry here\n", none⟩, stdoutPipe := none, start := some "not found",
    now := sampleTime, create := none, copy := none }

/-- A configuration that passes validation. -/
def sampleConfig : Config :=
  { samba_host := "nas:445", samba_username := "", samba_password := "",
    samba_share := "shots", folder := "desk", desktop_username := "u", interval := 5,
    verbose := false }

/-- The sample configuration with a username and a password for the share. -/
def credConfig : Config :=
  { sampleConfig with samba_username := "alice", samba_password := "secret" }

/-- A tick on which `loginctl list-sessions` fails. -/
def failedListingTick : Tick :=
  { goodTick with listSessions := ⟨"", some "exit status 1"⟩ }

/-- A world in which every dependency is installed and the share answers. -/
def sampleWorld (ticks : List Tick) : World :=
  { lookPath := fun _ => none, share := ⟨none, none, none, none⟩, ticks := ticks }

/-! ## The model on the inputs quoted in the source -/

/-- The listings and details quoted in the comments of `isDesktopActive`. -/
theorem isDesktopActive_samples :
    isDesktopActive ⟨sampleListing, none⟩ (fun _ => ⟨sampleDetail, none⟩) "u" = Go.ret true ∧
    isDesktopActive ⟨sampleListing, none⟩ (fun _ => ⟨sampleDetail, none⟩) "v" = Go.ret false ∧
    isDesktopActive ⟨"SESSION UID USER SEAT TTY\n", none⟩ (fun _ => ⟨sampleDetail, none⟩) "u"
      = Go.ret false ∧
    fieldsChars "   2728 1000 u          pts/17".toList
      = ["2728".toList, "1000".toList, "u".toList, "pts/17".toList] ∧
    splitChars '=' "LockedHint=no".toList = ["LockedHint".toList, "no".toList] ∧
    ParseInt "2728".toList = some 2728 ∧ ParseInt "c1".toList = none := by
  decide

/-- The `xrandr` output quoted in `takeScrrenshot` gives the video size `4480x1440`. -/
theorem takeScrrenshot_samples :
    takeScrrenshot ⟨sampleXrandr, none⟩ none none
      = ⟨[Event.ffmpegStart (ffmpegArgs 4480 1440)], Go.ret (Except.ok ⟨ffmpegArgs 4480 1440⟩)⟩ ∧
    ffmpegArgs 4480 1440 = ["-f", "x11grab", "-video_size", "4480x1440", "-i", ":0.0",
      "-vframes", "1", "-f", "image2pipe", "-vcodec", "png", "-"] := by
  decide

/-- Paths and file names on sample inputs. -/
theorem path_and_name_samples :
    Join ["a/b/", "x.png"] = "a/b/x.png" ∧ Join ["", ""] = "" ∧
    Join ["../a/../..", "/b"] = "../../b" ∧ Join ["/a/./b//", "../c"] = "/a/c" ∧
    Dir "a/b/x.png" = "a/b" ∧ Dir "x.png" = "." ∧
    sampleTime.Format = "2024-07-08T094417.png" ∧
    (Time.mk (-5) 12 31 23 59 59 0).Format = "-0005-12-31T235959.png" ∧
    (Time.mk 12345 1 1 0 0 0 0).Format = "12345-01-01T000000.png" := by
  decide

/-- One run of the daemon on the sample configuration with a single tick. -/
theorem execute_sample :
    rootCmd.Execute sampleConfig (sampleWorld [goodTick]) =
      ⟨[Event.log "Starting the application", Event.dial "nas:445",
        Event.dialContext none none, Event.mount "shots", Event.mkdirAll "nas:445/desk",
        Event.log "Samba started", Event.ffmpegStart (ffmpegArgs 4480 1440),
        Event.create "desk/2024-07-08T094417.png", Event.copy ⟨ffmpegArgs 4480 1440⟩,
        Event.closeFile, Event.closeReader ⟨ffmpegArgs 4480 1440⟩,
        Event.log "Received an interrupt, stopping the application"], Go.ret none⟩ := by
  decide

/-- The period of the ticker: five seconds for the interval 5, and a wrapped,
negative period for the interval 9223372037, on which `NewTicker` panics
before anything is dialled. -/
theorem ticker_samples :
    tickerDuration 5 = 5000000000 ∧ tickerDuration 9223372037 = -9223372036709551616 ∧
    serve { sampleConfig with interval := 9223372037 } (sampleWorld [goodTick])
      = ⟨[], Go.panic "non-positive interval for NewTicker"⟩ := by
  decide

/-! ## Lemmas on the parsers -/

theorem splitChars_ne_nil (sep : Char) (s : List Char) : splitChars sep s ≠ [] := by
  induction s with
  | nil => simp [splitChars]
  | cons c cs ih =>
    unfold splitChars
    split
    · simp
    · split <;> simp

/-- Every piece of a split is made of characters of the input. -/
theorem mem_of_mem_splitChars (sep : Char) (s p : List Char) (hp : p ∈ splitChars sep s)
    (c : Char) (hc : c ∈ p) : c ∈ s := by
  induction s generalizing p with
  | nil =>
    simp [splitChars] at hp
    subst hp
    simp at hc
  | cons d ds ih =>
    unfold splitChars at hp
    split at hp
    · rcases List.mem_cons.1 hp with h | h
      · subst h
        simp at hc
      · exact List.mem_cons_of_mem _ (ih p h hc)
    · split at hp
      · simp at hp
        subst hp
        simp at hc
        subst hc
        exact List.mem_cons_self _ _
      · rename_i q qs hq
        rcases List.mem_cons.1 hp with h | h
        · subst h
          rcases List.mem_cons.1 hc with h2 | h2
          · subst h2
            exact List.mem_cons_self _ _
          · exact List.mem_cons_of_mem _ (ih q (by rw [hq]; exact List.mem_cons_self _ _) h2)
        · exact List.mem_cons_of_mem _ (ih p (by rw [hq]; exact List.mem_cons_of_mem _ h) hc)

/-- No piece of a split contains the separator. -/
theorem sep_not_mem_splitChars (sep : Char) (s p : List Char) (hp : p ∈ splitChars sep s) :
    sep ∉ p := by
  induction s generalizing p with
  | nil =>
    simp [splitChars] at hp
    subst hp
    simp
  | cons d ds ih =>
    unfold splitChars at hp
    split at hp
    · rcases List.mem_cons.1 hp with h | h
      · subst h
        simp
      · exact ih p h
    · rename_i hne
      split at hp
      · simp at hp
        subst hp
        simpa using fun h => hne h.symm
      · rename_i q qs hq
        rcases List.mem_cons.1 hp with h | h
        · subst h
          intro hmem
          rcases List.mem_cons.1 hmem with h2 | h2
          · exact hne h2.symm
          · exact ih q (by rw [hq]; exact List.mem_cons_self _ _) h2
        · exact ih p (by rw [hq]; exact List.mem_cons_of_mem _ h)

/-- A field of a line without a newline is never the text `no` followed by a newline. -/
theorem field_ne_no_newline (line : List Char) (hline : '\n' ∉ line) (i : Nat) :
    (splitChars '=' line).getD i [] ≠ "no\n".toList := by
  intro h
  by_cases hi : i < (splitChars '=' line).length
  · have hmem : (splitChars '=' line).getD i [] ∈ splitChars '=' line := by
      rw [List.getD_eq_getElem _ _ hi]
      exact List.getElem_mem _
    have hnl : '\n' ∈ (splitChars '=' line).getD i [] := by
      rw [h]
      decide
    exact hline (mem_of_mem_splitChars '=' line _ hmem '\n' hnl)
  · rw [List.getD_eq_default _ _ (by omega)] at h
    exact absurd h (by decide)

/-- On a line without a newline the flags `remote` and `locked` stay false. -/
theorem isUnlockedLocal_step_false (line : List Char) (hline : '\n' ∉ line) :
    isUnlockedLocal.step (false, false) line = (false, false) := by
  have h := field_ne_no_newline line hline 1
  unfold isUnlockedLocal.step
  simp only [h, decide_False]
  split
  · rfl
  · split <;> rfl

theorem isUnlockedLocal_foldl_false (lines : List (List Char))
    (h : ∀ line ∈ lines, '\n' ∉ line) :
    lines.foldl isUnlockedLocal.step (false, false) = (false, false) := by
  induction lines with
  | nil => rfl
  | cons l ls ih =>
    rw [List.foldl_cons, isUnlockedLocal_step_false l (h l (List.mem_cons_self _ _))]
    exact ih (fun line hl => h line (List.mem_cons_of_mem _ hl))

/-- The closure `isUnlockedLocal` answers true for every session, whatever
`loginctl show-session` printed and whether or not it failed. -/
theorem isUnlockedLocal_eq_true (showSession : Int → CmdOutput) (sessionID : Int) :
    isUnlockedLocal showSession sessionID = true := by
  unfold isUnlockedLocal
  simp only
  rw [isUnlockedLocal_foldl_false _ (fun line hl => sep_not_mem_splitChars '\n' _ line hl)]
  rfl

/-- The loop of `isDesktopActive` answers true as soon as one line passes the three tests. -/
theorem isDesktopActive_loop_true (showSession : Int → CmdOutput) (user : String)
    (lines : List (List Char)) (line : List Char) (sessionID : Int) (hmem : line ∈ lines)
    (hlen : 5 ≤ (fieldsChars line).length)
    (huser : (fieldsChars line).getD 2 [] = user.toList)
    (hid : ParseInt ((fieldsChars line).getD 0 []) = some sessionID) :
    isDesktopActive.loop showSession user lines = true := by
  induction lines with
  | nil => simp at hmem
  | cons l ls ih =>
    unfold isDesktopActive.loop
    simp only [isUnlockedLocal_eq_true, if_true]
    rcases List.mem_cons.1 hmem with h | h
    · subst h
      rw [if_pos ⟨hlen, huser⟩, hid]
    · have := ih h
      split
      · split
        · rfl
        · exact this
      · exact this

/-- The loop of `isDesktopActive` answers false when no line passes the tests on the fields. -/
theorem isDesktopActive_loop_false (showSession : Int → CmdOutput) (user : String)
    (lines : List (List Char))
    (h : ∀ line ∈ lines, ¬ (5 ≤ (fieldsChars line).length ∧
      (fieldsChars line).getD 2 [] = user.toList)) :
    isDesktopActive.loop showSession user lines = false := by
  induction lines with
  | nil => rfl
  | cons l ls ih =>
    unfold isDesktopActive.loop
    simp only [h l (List.mem_cons_self _ _), if_false]
    exact ih (fun line hl => h line (List.mem_cons_of_mem _ hl))

/-- The loop of `isDesktopActive` answers true only when some line passes the
three tests on its fields. -/
theorem isDesktopActive_loop_true_only (showSession : Int → CmdOutput) (user : String)
    (lines : List (List Char)) (h : isDesktopActive.loop showSession user lines = true) :
    ∃ line ∈ lines, 5 ≤ (fieldsChars line).length ∧
      (fieldsChars line).getD 2 [] = user.toList ∧
      ∃ sessionID, ParseInt ((fieldsChars line).getD 0 []) = some sessionID := by
  induction lines with
  | nil => exact absurd h (by simp [isDesktopActive.loop])
  | cons l ls ih =>
    have lift : (∃ line ∈ ls, 5 ≤ (fieldsChars line).length ∧
        (fieldsChars line).getD 2 [] = user.toList ∧
        ∃ sessionID, ParseInt ((fieldsChars line).getD 0 []) = some sessionID) →
        ∃ line ∈ l :: ls, 5 ≤ (fieldsChars line).length ∧
          (fieldsChars line).getD 2 [] = user.toList ∧
          ∃ sessionID, ParseInt ((fieldsChars line).getD 0 []) = some sessionID := by
      rintro ⟨line, hl, hrest⟩
      exact ⟨line, List.mem_cons_of_mem _ hl, hrest⟩
    unfold isDesktopActive.loop at h
    by_cases hg : 5 ≤ (fieldsChars l).length ∧ (fieldsChars l).getD 2 [] = user.toList
    · cases hid : ParseInt ((fieldsChars l).getD 0 []) with
      | some sessionID => exact ⟨l, List.mem_cons_self _ _, hg.1, hg.2, sessionID, hid⟩
      | none =>
        simp only [if_pos hg, hid] at h
        exact lift (ih h)
    · simp only [if_neg hg] at h
      exact lift (ih h)

/-! ## Lemmas on the poll loop -/

/-- The loop body, one tick unfolded. -/
theorem serve_loop_cons (samba : _Samba) (user : String) (t : Tick) (ts : List Tick) :
    serve.loop samba user (t :: ts) =
      match isDesktopActive t.listSessions t.showSession user with
      | Go.panic err => ⟨[], some err⟩
      | Go.ret false => serve.loop samba user ts
      | Go.ret true =>
        match (takeScrrenshot t.xrandr t.stdoutPipe t.start).result with
        | Go.panic err => ⟨(takeScrrenshot t.xrandr t.stdoutPipe t.start).events, some err⟩
        | Go.ret (Except.error err) =>
          ⟨(takeScrrenshot t.xrandr t.stdoutPipe t.start).events ++
              Event.log ("Error taking screenshot: " ++ err) :: (serve.loop samba user ts).events,
            (serve.loop samba user ts).result⟩
        | Go.ret (Except.ok reader) =>
          ⟨(takeScrrenshot t.xrandr t.stdoutPipe t.start).events ++
              (samba.UploadScreenshot t.now t.create t.copy reader).events ++
              (match (samba.UploadScreenshot t.now t.create t.copy reader).result with
                | some err => [Event.log ("Error uploading screenshot: " ++ err)]
                | none => []) ++
              Event.closeReader reader :: (serve.loop samba user ts).events,
            (serve.loop samba user ts).result⟩ := by
  conv_lhs => unfold serve.loop

/-- Ticks handled without a panic are followed by the rest of the ticks. -/
theorem serve_loop_append (samba : _Samba) (user : String) (pre rest : List Tick)
    (h : (serve.loop samba user pre).result = none) :
    serve.loop samba user (pre ++ rest) =
      ⟨(serve.loop samba user pre).events ++ (serve.loop samba user rest).events,
        (serve.loop samba user rest).result⟩ := by
  induction pre with
  | nil => rfl
  | cons t ps ih =>
    rw [List.cons_append, serve_loop_cons]
    rw [serve_loop_cons] at h
    cases hact : isDesktopActive t.listSessions t.showSession user with
    | panic e =>
      rw [hact] at h
      exact absurd h (by simp)
    | ret b =>
      cases b with
      | false =>
        rw [hact] at h
        rw [serve_loop_cons samba user t ps, hact]
        exact ih h
      | true =>
        rw [hact] at h
        rw [serve_loop_cons samba user t ps, hact]
        cases hshot : (takeScrrenshot t.xrandr t.stdoutPipe t.start).result with
        | panic e =>
          rw [hshot] at h
          exact absurd h (by simp)
        | ret r =>
          cases r with
          | error e =>
            rw [hshot] at h
            simp only [hshot]
            rw [ih h]
            simp
          | ok reader =>
            rw [hshot] at h
            simp only [hshot]
            rw [ih h]
            simp

/-! ## Session gating -/

/-- C1, evaluated on the code: with one session of user `u` whose detail
prints `Remote=yes`, and with one whose detail prints `LockedHint=yes`,
`isDesktopActive` answers true, where the claim requires false. -/
theorem isDesktopActive_remote_or_locked_is_active :
    isDesktopActive ⟨sampleListing, none⟩
        (fun _ => ⟨"Id=1\nRemote=yes\nLockedHint=no\n", none⟩) "u" = Go.ret true ∧
    isDesktopActive ⟨sampleListing, none⟩
        (fun _ => ⟨"Id=1\nRemote=no\nLockedHint=yes\n", none⟩) "u" = Go.ret true := by
  decide

/-- C2 as stated fails: a listing whose only session of user `u` has no seat
and no tty column, with a detail printing `Remote=no` and `LockedHint=no`,
makes `isDesktopActive` answer false. -/
theorem isDesktopActive_short_line_not_active :
    (fieldsChars "2729 1000 u".toList).getD 2 [] = "u".toList ∧
    "Remote=no".toList ∈ splitChars '\n' sampleDetail.toList ∧
    "LockedHint=no".toList ∈ splitChars '\n' sampleDetail.toList ∧
    isDesktopActive ⟨"SESSION UID USER SEAT TTY\n2729 1000 u\n", none⟩
        (fun _ => ⟨sampleDetail, none⟩) "u" = Go.ret false := by
  decide

/-- C2, amended: `isDesktopActive` answers true whenever the listing has,
after its header line, a line with at least five fields whose third field is
the user and whose first field is a decimal 64-bit session id, and the detail
of that session prints `Remote=no` and `LockedHint=no`, whatever the other
lines and sessions are. It answers true only when the listing has such a line
of five fields: lines that lack the seat or the tty column are skipped, and a
listing in which every line of the user is that short gives false. -/
theorem isDesktopActive_true_of_full_line (listing : String) (showSession : Int → CmdOutput)
    (user : String) :
    (∀ (line : List Char) (sessionID : Int),
      line ∈ (splitChars '\n' listing.toList).drop 1 →
      5 ≤ (fieldsChars line).length →
      (fieldsChars line).getD 2 [] = user.toList →
      ParseInt ((fieldsChars line).getD 0 []) = some sessionID →
      "Remote=no".toList ∈ splitChars '\n' (showSession sessionID).output.toList →
      "LockedHint=no".toList ∈ splitChars '\n' (showSession sessionID).output.toList →
      isDesktopActive ⟨listing, none⟩ showSession user = Go.ret true) ∧
    (isDesktopActive ⟨listing, none⟩ showSession user = Go.ret true →
      ∃ line ∈ (splitChars '\n' listing.toList).drop 1,
        5 ≤ (fieldsChars line).length ∧ (fieldsChars line).getD 2 [] = user.toList ∧
        ∃ sessionID, ParseInt ((fieldsChars line).getD 0 []) = some sessionID) ∧
    ((∀ line ∈ (splitChars '\n' listing.toList).drop 1,
        (fieldsChars line).getD 2 [] = user.toList → (fieldsChars line).length < 5) →
      isDesktopActive ⟨listing, none⟩ showSession user = Go.ret false) := by
  have hdef : isDesktopActive ⟨listing, none⟩ showSession user =
      Go.ret (isDesktopActive.loop showSession user
        ((splitChars '\n' listing.toList).drop 1)) := rfl
  refine ⟨?_, ?_, ?_⟩
  · intro line sessionID hmem hlen huser hid _ _
    rw [hdef, isDesktopActive_loop_true showSession user _ line sessionID hmem hlen huser hid]
  · intro h
    rw [hdef] at h
    exact isDesktopActive_loop_true_only showSession user _ (Go.ret.inj h)
  · intro h
    rw [hdef, isDesktopActive_loop_false showSession user _
      (fun line hl hg => absurd hg.1 (not_le.2 (h line hl hg.2)))]

/-- The amended C2 applies to a listing with a short line before a full one,
and to a listing whose lines of the user lack the seat, or the seat and the tty. -/
theorem isDesktopActive_true_of_full_line_witness :
    isDesktopActive ⟨"SESSION UID USER SEAT TTY\n2729 1000 u\n1 1000 u seat0 tty2\n", none⟩
      (fun _ => ⟨sampleDetail, none⟩) "u" = Go.ret true ∧
    (∃ line ∈ (splitChars '\n'
        "SESSION UID USER SEAT TTY\n2729 1000 u\n1 1000 u seat0 tty2\n".toList).drop 1,
      5 ≤ (fieldsChars line).length ∧ (fieldsChars line).getD 2 [] = "u".toList ∧
      ∃ sessionID, ParseInt ((fieldsChars line).getD 0 []) = some sessionID) ∧
    isDesktopActive ⟨"SESSION UID USER SEAT TTY\n2728 1000 u pts/17\n2729 1000 u\n", none⟩
      (fun _ => ⟨sampleDetail, none⟩) "u" = Go.ret false :=
  have h1 := (isDesktopActive_true_of_full_line
      "SESSION UID USER SEAT TTY\n2729 1000 u\n1 1000 u seat0 tty2\n"
      (fun _ => ⟨sampleDetail, none⟩) "u").1 "1 1000 u seat0 tty2".toList 1
      (by decide) (by decide) (by decide) (by decide) (by decide) (by decide)
  ⟨h1,
    (isDesktopActive_true_of_full_line
      "SESSION UID USER SEAT TTY\n2729 1000 u\n1 1000 u seat0 tty2\n"
      (fun _ => ⟨sampleDetail, none⟩) "u").2.1 h1,
    (isDesktopActive_true_of_full_line
      "SESSION UID USER SEAT TTY\n2728 1000 u pts/17\n2729 1000 u\n"
      (fun _ => ⟨sampleDetail, none⟩) "u").2.2 (by decide)⟩

/-- C9 as stated fails: when `loginctl list-sessions` fails, `isDesktopActive`
does not return false but panics, and the daemon ends in that panic without
reaching the next tick, on which everything would have worked. -/
theorem listSessions_failure_aborts_example :
    isDesktopActive ⟨"", some "exit status 1"⟩ (fun _ => ⟨sampleDetail, none⟩) "u"
      ≠ Go.ret false ∧
    (serve sampleConfig (sampleWorld
      [{ goodTick with listSessions := ⟨"", some "exit status 1"⟩ }, goodTick])).result
      = Go.panic "exit status 1" ∧
    ((serve sampleConfig (sampleWorld
      [{ goodTick with listSessions := ⟨"", some "exit status 1"⟩ }, goodTick])).events.filterMap
        Event.createPath) = [] := by
  decide

/-- C9, amended: when `loginctl list-sessions` fails with error `err`,
`isDesktopActive` panics with `err`. On whatever tick that happens, after any
number of ticks that went by without a panic, the poll loop ends in the panic
at that tick: nothing is called or logged on it and no later tick is handled.
The daemon, with its dependencies installed, an interval of at least one second
whose ticker period is positive, and the share connected, ends in the same
panic, its trace being that of the earlier ticks. -/
theorem listSessions_failure_panics (cfg : Config) (w : World) (output err : String)
    (pre : List Tick) (t : Tick) (ts : List Tick)
    (hdeps : checkDependencies w.lookPath = none) (hint : 1 ≤ cfg.interval)
    (hdur : 0 < tickerDuration cfg.interval)
    (hstart : ((serve.samba cfg).Start w.share).result = none)
    (hpre : (serve.loop (serve.samba cfg) cfg.desktop_username pre).result = none)
    (hticks : w.ticks = pre ++ { t with listSessions := ⟨output, some err⟩ } :: ts) :
    (∀ user, isDesktopActive ⟨output, some err⟩ t.showSession user = Go.panic err) ∧
    (∀ (samba : _Samba) (user : String),
      serve.loop samba user ({ t with listSessions := ⟨output, some err⟩ } :: ts)
        = ⟨[], some err⟩) ∧
    (∀ (samba : _Samba) (user : String) (earlier : List Tick),
      (serve.loop samba user earlier).result = none →
      serve.loop samba user (earlier ++ { t with listSessions := ⟨output, some err⟩ } :: ts)
        = ⟨(serve.loop samba user earlier).events, some err⟩) ∧
    serve cfg w =
      ⟨(if cfg.verbose then [Event.log "Verbose mode enabled"] else []) ++
          Event.log "Starting the application" :: ((serve.samba cfg).Start w.share).events ++
          Event.log "Samba started" ::
            (serve.loop (serve.samba cfg) cfg.desktop_username pre).events,
        Go.panic err⟩ := by
  have hbad : ∀ (samba : _Samba) (user : String),
      serve.loop samba user ({ t with listSessions := ⟨output, some err⟩ } :: ts)
        = ⟨[], some err⟩ := fun _ _ => rfl
  have hlate : ∀ (samba : _Samba) (user : String) (earlier : List Tick),
      (serve.loop samba user earlier).result = none →
      serve.loop samba user (earlier ++ { t with listSessions := ⟨output, some err⟩ } :: ts)
        = ⟨(serve.loop samba user earlier).events, some err⟩ := by
    intro samba user earlier h
    rw [serve_loop_append samba user earlier _ h, hbad samba user]
    simp
  refine ⟨fun _ => rfl, hbad, hlate, ?_⟩
  unfold serve
  simp only [hdeps, hstart, hticks, not_lt.2 hint, not_le.2 hdur, if_false,
    hlate (serve.samba cfg) cfg.desktop_username pre hpre]

/-- The amended C9 applies to the daemon with credentials, on the second of three ticks. -/
theorem listSessions_failure_panics_witness :
    isDesktopActive ⟨"", some "exit status 1"⟩ goodTick.showSession "u"
      = Go.panic "exit status 1" ∧
    serve.loop (serve.samba credConfig) "u" ([goodTick] ++ failedListingTick :: [goodTick])
      = ⟨(serve.loop (serve.samba credConfig) "u" [goodTick]).events,
          some "exit status 1"⟩ ∧
    serve credConfig (sampleWorld [goodTick, failedListingTick, goodTick]) =
      ⟨[Event.log "Starting the application", Event.dial "nas:445",
        Event.dialContext (some "alice") (some "secret"), Event.mount "shots",
        Event.mkdirAll "nas:445/desk", Event.log "Samba started",
        Event.ffmpegStart (ffmpegArgs 4480 1440), Event.create "desk/2024-07-08T094417.png",
        Event.copy ⟨ffmpegArgs 4480 1440⟩, Event.closeFile,
        Event.closeReader ⟨ffmpegArgs 4480 1440⟩], Go.panic "exit status 1"⟩ :=
  have h := listSessions_failure_panics credConfig
    (sampleWorld [goodTick, failedListingTick, goodTick]) "" "exit status 1" [goodTick]
    goodTick [goodTick] (by decide) (by decide) (by decide) (by decide) (by decide) rfl
  ⟨h.1 "u", h.2.2.1 (serve.samba credConfig) "u" [goodTick] (by decide),
    h.2.2.2.trans (by decide)⟩

/-- C10, evaluated on the code: when `loginctl show-session` fails for the
only session of user `u`, with no output at all, `isDesktopActive` answers
true, where the claim requires false. -/
theorem isDesktopActive_failed_detail_is_active :
    isDesktopActive ⟨sampleListing, none⟩ (fun _ => ⟨"", some "exit status 1"⟩) "u"
      = Go.ret true := by
  decide

/-! ## Startup validation and the poll loop -/

/-- C3: for every configuration with an empty `samba_host`, an empty
`desktop_username` or an `interval` below one, `PreRunE` returns an error,
`rootCmd.Execute` returns that error without running `serve`, and no
connection to the share is attempted. -/
theorem preRunE_rejects_before_serve (cfg : Config) (w : World)
    (h : cfg.samba_host = "" ∨ cfg.desktop_username = "" ∨ cfg.interval < 1) :
    (∃ err, PreRunE cfg = some err ∧ rootCmd.Execute cfg w = ⟨[], Go.ret (some err)⟩) ∧
    ∀ host, Event.dial host ∉ (rootCmd.Execute cfg w).events := by
  have hpre : ∃ err, PreRunE cfg = some err := by
    unfold PreRunE
    by_cases h1 : cfg.samba_host = ""
    · exact ⟨_, if_pos h1⟩
    · by_cases h2 : cfg.desktop_username = ""
      · exact ⟨_, by rw [if_neg h1, if_pos h2]⟩
      · have h3 : cfg.interval < 1 := by
          rcases h with h | h | h
          · exact absurd h h1
          · exact absurd h h2
          · exact h
        exact ⟨_, by rw [if_neg h1, if_neg h2, if_pos h3]⟩
  obtain ⟨err, herr⟩ := hpre
  have hexec : rootCmd.Execute cfg w = ⟨[], Go.ret (some err)⟩ := by
    unfold rootCmd.Execute
    rw [herr]
  refine ⟨⟨err, herr, hexec⟩, ?_⟩
  intro host
  rw [hexec]
  simp

/-- C3 applies to the sample configuration with its interval set to zero. -/
theorem preRunE_rejects_before_serve_witness :
    ((sampleConfig.samba_host = "" ∨ sampleConfig.desktop_username = "" ∨ (0 : Int) < 1) ∧
      ∃ err, PreRunE { sampleConfig with interval := 0 } = some err ∧
        rootCmd.Execute { sampleConfig with interval := 0 } (sampleWorld [goodTick])
          = ⟨[], Go.ret (some err)⟩) ∧
    ∀ host, Event.dial host ∉
      (rootCmd.Execute { sampleConfig with interval := 0 } (sampleWorld [goodTick])).events :=
  have h := preRunE_rejects_before_serve { sampleConfig with interval := 0 }
    (sampleWorld [goodTick]) (Or.inr (Or.inr (by decide)))
  ⟨⟨Or.inr (Or.inr (by decide)), h.1⟩, h.2⟩

/-- C4: over any run of ticks on which `isDesktopActive` answers true and
`takeScrrenshot` returns a stream, the loop ends without a panic and calls
`UploadScreenshot` exactly once per tick, in tick order, each call creating the
file named after the time of its tick, whatever errors `Create` and `io.Copy`
return on any tick. -/
theorem loop_uploads_once_per_tick (samba : _Samba) (user : String) (ticks : List Tick)
    (hactive : ∀ t ∈ ticks, isDesktopActive t.listSessions t.showSession user = Go.ret true)
    (hshot : ∀ t ∈ ticks, ∃ r,
      (takeScrrenshot t.xrandr t.stdoutPipe t.start).result = Go.ret (Except.ok r)) :
    (serve.loop samba user ticks).result = none ∧
    (serve.loop samba user ticks).events.filterMap Event.createPath
      = ticks.map (fun t => Join [samba.Path, t.now.Format]) ∧
    ((serve.loop samba user ticks).events.filterMap Event.createPath).length
      = ticks.length := by
  have main : (serve.loop samba user ticks).result = none ∧
      (serve.loop samba user ticks).events.filterMap Event.createPath
        = ticks.map (fun t => Join [samba.Path, t.now.Format]) := by
    induction ticks with
    | nil => exact ⟨rfl, rfl⟩
    | cons t ts ih =>
      have ih2 := ih (fun x hx => hactive x (List.mem_cons_of_mem _ hx))
        (fun x hx => hshot x (List.mem_cons_of_mem _ hx))
      obtain ⟨r, hr⟩ := hshot t (List.mem_cons_self _ _)
      have hev : (takeScrrenshot t.xrandr t.stdoutPipe t.start).events.filterMap
          Event.createPath = [] := by
        unfold takeScrrenshot
        split
        · rfl
        · split
          · rfl
          · split <;> rfl
      unfold serve.loop
      rw [hactive t (List.mem_cons_self _ _)]
      simp only [hr]
      refine ⟨ih2.1, ?_⟩
      rw [List.filterMap_append, List.filterMap_append, List.filterMap_append, hev,
        List.filterMap_cons, List.map_cons, ← ih2.2]
      unfold _Samba.UploadScreenshot
      cases t.create <;> cases t.copy <;> rfl
  exact ⟨main.1, main.2, by rw [main.2, List.length_map]⟩

/-- C4 applies to two ticks, the first of which fails to create its file. -/
theorem loop_uploads_once_per_tick_witness :
    (serve.loop (serve.samba sampleConfig) "u"
      [{ goodTick with create := some "disk full" }, goodTick]).result = none ∧
    (serve.loop (serve.samba sampleConfig) "u"
      [{ goodTick with create := some "disk full" }, goodTick]).events.filterMap
        Event.createPath
      = [{ goodTick with create := some "disk full" }, goodTick].map
          (fun t => Join [(serve.samba sampleConfig).Path, t.now.Format]) ∧
    ((serve.loop (serve.samba sampleConfig) "u"
      [{ goodTick with create := some "disk full" }, goodTick]).events.filterMap
        Event.createPath).length = [{ goodTick with create := some "disk full" }, goodTick].length :=
  loop_uploads_once_per_tick (serve.samba sampleConfig) "u"
    [{ goodTick with create := some "disk full" }, goodTick]
    (by
      intro t ht
      simp only [List.mem_cons, List.mem_singleton, List.not_mem_nil, or_false] at ht
      rcases ht with h | h <;> subst h <;> decide)
    (by
      intro t ht
      simp only [List.mem_cons, List.mem_singleton, List.not_mem_nil, or_false] at ht
      rcases ht with h | h <;> subst h <;> exact ⟨⟨ffmpegArgs 4480 1440⟩, by decide⟩)

/-! ## The share -/

/-- C5, evaluated on the code: for host `nas:445` and folder `desk`, `Start`
creates the directory `nas:445/desk` on the share, while `UploadScreenshot`
creates its file in the directory `desk`; the two directories differ. -/
theorem start_directory_is_not_upload_directory :
    ((NewSamba "nas:445" "shots" "desk").Start ⟨none, none, none, none⟩).events
      = [Event.dial "nas:445", Event.dialContext none none, Event.mount "shots",
         Event.mkdirAll "nas:445/desk"] ∧
    ((NewSamba "nas:445" "shots" "desk").UploadScreenshot sampleTime none none ⟨[]⟩).events
      = [Event.create "desk/2024-07-08T094417.png", Event.copy ⟨[]⟩, Event.closeFile] ∧
    Dir "desk/2024-07-08T094417.png" = "desk" ∧
    Join ["nas:445", "desk"] ≠ Dir (Join ["desk", sampleTime.Format]) := by
  decide

/-- C6, evaluated on the code: with the username `alice` and an empty
password, at least one of the two is not empty, yet `serve` does not hand the
credentials over: the `_Samba` value has no initiator and `Start` calls
`DialContext` on the default dialer, whether the library then accepts or
refuses it. `Start` on a `_Samba` that holds this username would have used
the NTLM initiator with `alice`, as the claim says. -/
theorem username_without_password_is_anonymous :
    (serve.samba { sampleConfig with samba_username := "alice" }).initiator = none ∧
    Event.dialContext none none ∈
      (serve { sampleConfig with samba_username := "alice" } (sampleWorld [])).events ∧
    serve { sampleConfig with samba_username := "alice" }
        { lookPath := fun _ => none, share := ⟨none, some "Initiator is empty", none, none⟩,
          ticks := [] }
      = ⟨[Event.log "Starting the application", Event.dial "nas:445",
          Event.dialContext none none], Go.panic "Initiator is empty"⟩ ∧
    ((NewSamba "nas:445" "shots" "desk").WithCredentials "alice" "").initiator
      = some ("alice", "") := by
  decide

/-- The `_Samba` value that `serve` builds carries the NTLM initiator with the
configured username and password exactly when both are not empty, and no
initiator as soon as one of them is empty, which is narrower than the test of
`Start`; `Start`, once the host is reached, dials with that initiator. -/
theorem serve_initiator_iff_both_set (cfg : Config) (dialContext mount mkdirAll : Option String) :
    (serve.samba cfg).initiator
      = (if cfg.samba_username ≠ "" ∧ cfg.samba_password ≠ "" then
          some (cfg.samba_username, cfg.samba_password) else none) ∧
    ((serve.samba cfg).initiator = none ↔
      (cfg.samba_username = "" ∨ cfg.samba_password = "")) ∧
    Event.dialContext
        (if cfg.samba_username ≠ "" ∧ cfg.samba_password ≠ "" then some cfg.samba_username
          else none)
        (if cfg.samba_username ≠ "" ∧ cfg.samba_password ≠ "" then some cfg.samba_password
          else none)
      ∈ ((serve.samba cfg).Start ⟨none, dialContext, mount, mkdirAll⟩).events := by
  have hinit : (serve.samba cfg).initiator
      = (if cfg.samba_username ≠ "" ∧ cfg.samba_password ≠ "" then
          some (cfg.samba_username, cfg.samba_password) else none) := by
    unfold serve.samba
    by_cases hb : cfg.samba_username ≠ "" ∧ cfg.samba_password ≠ ""
    · simp only [if_pos hb]
      unfold _Samba.initiator _Samba.WithCredentials
      simp only [if_pos (Or.inl hb.1)]
    · simp only [if_neg hb]
      unfold _Samba.initiator NewSamba
      simp
  refine ⟨hinit, ?_, ?_⟩
  · rw [hinit]
    by_cases hb : cfg.samba_username ≠ "" ∧ cfg.samba_password ≠ ""
    · rw [if_pos hb]
      constructor
      · intro h
        exact absurd h (by simp)
      · rintro (h | h)
        · exact absurd h hb.1
        · exact absurd h hb.2
    · rw [if_neg hb]
      refine ⟨fun _ => ?_, fun _ => rfl⟩
      by_cases hu : cfg.samba_username = ""
      · exact Or.inl hu
      · by_cases hp : cfg.samba_password = ""
        · exact Or.inr hp
        · exact absurd ⟨hu, hp⟩ hb
  · unfold _Samba.Start
    simp only [hinit]
    by_cases hb : cfg.samba_username ≠ "" ∧ cfg.samba_password ≠ ""
    · simp only [if_pos hb, Option.map_some']
      cases dialContext with
      | some e => simp
      | none =>
        cases mount with
        | some e => simp
        | none =>
          simp only []
          split <;> simp
    · simp only [if_neg hb, Option.map_none']
      cases dialContext with
      | some e => simp
      | none =>
        cases mount with
        | some e => simp
        | none =>
          simp only []
          split <;> simp

/-! ## The file name -/

theorem digitChar_toNat (d : Nat) (h : d < 10) : (digitChar d).toNat = 48 + d := by
  interval_cases d <;> rfl

theorem digitChar_inj (a b : Nat) (ha : a < 10) (hb : b < 10)
    (h : digitChar a = digitChar b) : a = b := by
  have h2 := congrArg Char.toNat h
  rw [digitChar_toNat a ha, digitChar_toNat b hb] at h2
  omega

/-- Reading the digits back, least significant first, gives the number. -/
theorem natDigitsRev_value (fuel n : Nat) (h : n < fuel) :
    (natDigitsRev fuel n).foldr (fun c acc => 10 * acc + (c.toNat - 48)) 0 = n := by
  induction fuel generalizing n with
  | zero => omega
  | succ f ih =>
    unfold natDigitsRev
    split
    · rename_i hlt
      rw [List.foldr_cons, List.foldr_nil, digitChar_toNat n hlt]
      omega
    · rw [List.foldr_cons, ih (n / 10) (by omega), digitChar_toNat (n % 10) (by omega)]
      omega

theorem digitsValue_natDigits (n : Nat) : digitsValue (natDigits n) = n := by
  unfold digitsValue natDigits
  rw [List.foldl_reverse]
  exact natDigitsRev_value (n + 1) n (by omega)

theorem natDigitsRev_digit (fuel n : Nat) (c : Char) (hc : c ∈ natDigitsRev fuel n) :
    ∃ d, d < 10 ∧ c = digitChar d := by
  induction fuel generalizing n with
  | zero => simp [natDigitsRev] at hc
  | succ f ih =>
    unfold natDigitsRev at hc
    split at hc
    · rename_i hlt
      exact ⟨n, hlt, by simpa using hc⟩
    · rcases List.mem_cons.1 hc with h | h
      · exact ⟨n % 10, by omega, h⟩
      · exact ih (n / 10) h

/-- The digits of a number, padded with zeros on the left to `width`. -/
theorem appendInt_eq (x : Int) (width : Nat) :
    appendInt x width =
      if x < 0 then
        '-' :: (List.replicate (width - (natDigits x.natAbs).length) '0' ++ natDigits x.natAbs)
      else List.replicate (width - (natDigits x.natAbs).length) '0' ++ natDigits x.natAbs :=
  rfl

theorem digitsValue_padded (k n : Nat) :
    digitsValue (List.replicate k '0' ++ natDigits n) = n := by
  have hz : ∀ k : Nat, List.foldl (fun acc c => 10 * acc + (Char.toNat c - 48)) 0
      (List.replicate k '0') = 0 := by
    intro k
    induction k with
    | zero => rfl
    | succ k ih =>
      rw [List.replicate_succ, List.foldl_cons]
      exact ih
  have h := digitsValue_natDigits n
  unfold digitsValue at h ⊢
  rw [List.foldl_append, hz k]
  exact h

theorem minus_not_mem_padded (k n : Nat) : '-' ∉ List.replicate k '0' ++ natDigits n := by
  intro h
  rcases List.mem_append.1 h with h | h
  · have := List.eq_of_mem_replicate h
    exact absurd this (by decide)
  · unfold natDigits at h
    obtain ⟨d, hd, hc⟩ := natDigitsRev_digit _ _ _ (List.mem_reverse.1 h)
    have h2 := congrArg Char.toNat hc
    rw [digitChar_toNat d hd] at h2
    have h3 : ('-' : Char).toNat = 45 := rfl
    omega

/-- The function `appendInt` is injective in the number for every width. -/
theorem appendInt_inj (x y : Int) (width : Nat) (h : appendInt x width = appendInt y width) :
    x = y := by
  rw [appendInt_eq, appendInt_eq] at h
  by_cases hx : x < 0 <;> by_cases hy : y < 0
  · rw [if_pos hx, if_pos hy] at h
    have h2 := congrArg digitsValue (List.cons.inj h).2
    rw [digitsValue_padded, digitsValue_padded] at h2
    omega
  · rw [if_pos hx, if_neg hy] at h
    exact absurd (h ▸ List.mem_cons_self _ _) (minus_not_mem_padded _ _)
  · rw [if_neg hx, if_pos hy] at h
    exact absurd (h.symm ▸ List.mem_cons_self _ _) (minus_not_mem_padded _ _)
  · rw [if_neg hx, if_neg hy] at h
    have h2 := congrArg digitsValue h
    rw [digitsValue_padded, digitsValue_padded] at h2
    omega

/-- A field below one hundred is written with exactly two digits. -/
theorem appendInt_two (m : Nat) (h : m < 100) :
    appendInt (m : Int) 2 = [digitChar (m / 10), digitChar (m % 10)] := by
  interval_cases m <;> rfl

theorem two_digits_inj (a b : Nat) (ha : a < 100) (hb : b < 100)
    (h1 : digitChar (a / 10) = digitChar (b / 10))
    (h2 : digitChar (a % 10) = digitChar (b % 10)) : a = b := by
  have := digitChar_inj _ _ (by omega) (by omega) h1
  have := digitChar_inj _ _ (by omega) (by omega) h2
  omega

/-- C7: the file name is decided by the six fields year, month, day, hour,
minute and second of the local time: two valid times give the same name
exactly when they agree on all six, so a difference in any of them gives
distinct names and a difference in the nanoseconds alone gives one name. -/
theorem format_eq_iff (t1 t2 : Time) (h1 : t1.Valid) (h2 : t2.Valid) :
    t1.Format = t2.Format ↔
      (t1.year = t2.year ∧ t1.month = t2.month ∧ t1.day = t2.day ∧ t1.hour = t2.hour ∧
        t1.minute = t2.minute ∧ t1.second = t2.second) := by
  obtain ⟨_, hm1, _, hd1, hh1, hmi1, hs1, _⟩ := h1
  obtain ⟨_, hm2, _, hd2, hh2, hmi2, hs2, _⟩ := h2
  constructor
  · intro h
    unfold Time.Format at h
    rw [appendInt_two t1.month (by omega), appendInt_two t1.day (by omega),
      appendInt_two t1.hour (by omega), appendInt_two t1.minute (by omega),
      appendInt_two t1.second (by omega), appendInt_two t2.month (by omega),
      appendInt_two t2.day (by omega), appendInt_two t2.hour (by omega),
      appendInt_two t2.minute (by omega), appendInt_two t2.second (by omega)] at h
    have hl := congrArg String.data h
    simp only [List.append_assoc] at hl
    obtain ⟨hy, hr⟩ := List.append_inj' hl (by simp)
    simp only [List.cons_append, List.nil_append, List.cons.injEq, true_and] at hr
    obtain ⟨a1, a2, b1, b2, c1, c2, d1, d2, e1, e2, _⟩ := hr
    exact ⟨appendInt_inj _ _ _ hy, two_digits_inj _ _ (by omega) (by omega) a1 a2,
      two_digits_inj _ _ (by omega) (by omega) b1 b2,
      two_digits_inj _ _ (by omega) (by omega) c1 c2,
      two_digits_inj _ _ (by omega) (by omega) d1 d2,
      two_digits_inj _ _ (by omega) (by omega) e1 e2⟩
  · rintro ⟨hy, hm, hd, hh, hmi, hs⟩
    unfold Time.Format
    rw [hy, hm, hd, hh, hmi, hs]

/-- C7 applies to two times of one second that differ in their nanoseconds. -/
theorem format_eq_iff_witness :
    (sampleTime.Valid ∧ Time.Valid { sampleTime with nanosecond := 999 }) ∧
    (sampleTime.Format = Time.Format { sampleTime with nanosecond := 999 } ↔
      (sampleTime.year = 2024 ∧ sampleTime.month = 7 ∧ sampleTime.day = 8 ∧
        sampleTime.hour = 9 ∧ sampleTime.minute = 44 ∧ sampleTime.second = 17)) :=
  ⟨⟨by decide, by decide⟩,
    format_eq_iff sampleTime { sampleTime with nanosecond := 999 } (by decide) (by decide)⟩

/-! ## The capture -/

theorem stripLeading_eq_some (p s r : List Char) : stripLeading p s = some r ↔ s = p ++ r := by
  induction p generalizing s with
  | nil =>
    unfold stripLeading
    simp
  | cons a p ih =>
    cases s with
    | nil => simp [stripLeading]
    | cons c cs =>
      unfold stripLeading
      by_cases h : a = c
      · rw [if_pos h, ih]
        simp [h]
      · rw [if_neg h]
        constructor
        · intro hh
          exact absurd hh (by simp)
        · intro hh
          rw [List.cons_append] at hh
          exact absurd (List.cons.inj hh).1.symm h

/-- A match at the start of the string has the shape of the regular expression. -/
theorem matchHere_sound (s w h : List Char) (hm : matchHere s = some (w, h)) :
    ∃ suf, s = "current ".toList ++ (w ++ (" x ".toList ++ (h ++ suf))) ∧
      w ≠ [] ∧ h ≠ [] ∧ (∀ c ∈ w, isDigit c = true) ∧ (∀ c ∈ h, isDigit c = true) := by
  unfold matchHere at hm
  split at hm
  · exact absurd hm (by simp)
  · rename_i r hr
    simp only at hm
    split at hm
    · exact absurd hm (by simp)
    · rename_i hw
      split at hm
      · exact absurd hm (by simp)
      · rename_i r2 hr2
        split at hm
        · exact absurd hm (by simp)
        · rename_i hh
          simp only [Option.some.injEq, Prod.mk.injEq] at hm
          obtain ⟨hw2, hh2⟩ := hm
          refine ⟨r2.dropWhile isDigit, ?_, ?_, ?_, ?_, ?_⟩
          · rw [(stripLeading_eq_some _ _ _).1 hr, ← hw2, ← hh2,
              List.takeWhile_append_dropWhile, ← (stripLeading_eq_some _ _ _).1 hr2,
              List.takeWhile_append_dropWhile]
          · rw [← hw2]; exact hw
          · rw [← hh2]; exact hh
          · intro c hc
            rw [← hw2] at hc
            exact List.mem_takeWhile_imp hc
          · intro c hc
            rw [← hh2] at hc
            exact List.mem_takeWhile_imp hc

/-- A string of the shape of the regular expression matches at its start. -/
theorem matchHere_complete (w h suf : List Char) (hw : w ≠ []) (hh : h ≠ [])
    (hwd : ∀ c ∈ w, isDigit c = true) (hhd : ∀ c ∈ h, isDigit c = true) :
    ∃ m, matchHere ("current ".toList ++ (w ++ (" x ".toList ++ (h ++ suf)))) = some m := by
  have hblank : isDigit ' ' = false := by decide
  have htw : (w ++ (" x ".toList ++ (h ++ suf))).takeWhile isDigit = w := by
    rw [List.takeWhile_append_of_pos hwd]
    show w ++ List.takeWhile isDigit (' ' :: ('x' :: ' ' :: (h ++ suf))) = w
    rw [List.takeWhile_cons_of_neg (by simp [hblank]), List.append_nil]
  have hdw : (w ++ (" x ".toList ++ (h ++ suf))).dropWhile isDigit
      = " x ".toList ++ (h ++ suf) := by
    rw [List.dropWhile_append_of_pos hwd]
    show List.dropWhile isDigit (' ' :: ('x' :: ' ' :: (h ++ suf))) = _
    rw [List.dropWhile_cons_of_neg (by simp [hblank])]
    rfl
  have hth : (h ++ suf).takeWhile isDigit ≠ [] := by
    rw [List.takeWhile_append_of_pos hhd]
    intro hnil
    exact hh (List.append_eq_nil.1 hnil).1
  unfold matchHere
  rw [(stripLeading_eq_some _ _ _).2 rfl]
  simp only [htw, hdw, if_neg hw]
  rw [(stripLeading_eq_some _ _ _).2 rfl]
  simp only [if_neg hth]
  exact ⟨_, rfl⟩

theorem findStringSubmatch_of_matchHere (s : List Char) (m : List Char × List Char)
    (hm : matchHere s = some m) : FindStringSubmatch s = some m := by
  cases s with
  | nil => exact absurd hm (by simp [matchHere, stripLeading])
  | cons c cs =>
    unfold FindStringSubmatch
    rw [hm]

/-- The model of `FindStringSubmatch` finds a match exactly on the lines that
contain `current <digits> x <digits>`. -/
theorem findStringSubmatch_isSome_iff (line : List Char) :
    (∃ m, FindStringSubmatch line = some m) ↔ GeometryLine line := by
  constructor
  · rintro ⟨m, hm⟩
    induction line with
    | nil => simp [FindStringSubmatch] at hm
    | cons c cs ih =>
      unfold FindStringSubmatch at hm
      split at hm
      · rename_i m2 hm2
        obtain ⟨suf, hs, h3, h4, h5, h6⟩ := matchHere_sound _ m2.1 m2.2 hm2
        exact ⟨[], m2.1, m2.2, suf, by rw [hs]; rfl, h3, h4, h5, h6⟩
      · obtain ⟨pre, w, h, suf, hs, h3, h4, h5, h6⟩ := ih hm
        exact ⟨c :: pre, w, h, suf, by rw [hs]; rfl, h3, h4, h5, h6⟩
  · rintro ⟨pre, w, h, suf, hs, h3, h4, h5, h6⟩
    subst hs
    induction pre with
    | nil =>
      obtain ⟨m, hm⟩ := matchHere_complete w h suf h3 h4 h5 h6
      exact ⟨m, findStringSubmatch_of_matchHere _ m hm⟩
    | cons c pre ih =>
      obtain ⟨m, hm⟩ := ih
      show ∃ m, FindStringSubmatch (c :: _) = some m
      unfold FindStringSubmatch
      split
      · exact ⟨_, rfl⟩
      · exact ⟨m, hm⟩

theorem findStringSubmatch_eq_none (line : List Char) (h : ¬ GeometryLine line) :
    FindStringSubmatch line = none := by
  cases hf : FindStringSubmatch line with
  | none => rfl
  | some m => exact absurd ((findStringSubmatch_isSome_iff line).1 ⟨m, hf⟩) h

theorem not_geometryLine_of_none (lines : List (List Char))
    (h : ∀ line ∈ lines, FindStringSubmatch line = none) :
    ∀ line ∈ lines, ¬ GeometryLine line := by
  intro line hl hg
  obtain ⟨m, hm⟩ := (findStringSubmatch_isSome_iff line).2 hg
  rw [h line hl] at hm
  exact absurd hm (by simp)

/-- Without a matching line the width and the height stay at zero. -/
theorem screenSize_eq_zero (lines : List (List Char))
    (h : ∀ line ∈ lines, ¬ GeometryLine line) : screenSize lines = (0, 0) := by
  induction lines with
  | nil => rfl
  | cons l ls ih =>
    unfold screenSize
    rw [findStringSubmatch_eq_none l (h l (List.mem_cons_self _ _))]
    exact ih (fun line hl => h line (List.mem_cons_of_mem _ hl))

/-- C8 as stated fails: an `xrandr` output without any geometry line does not
make `takeScrrenshot` return an error; ffmpeg is started with the video size
`0x0` and its stream is returned. A failing `xrandr` is not a returned error
either: it is a panic. -/
theorem takeScrrenshot_no_geometry_example :
    (∀ line ∈ splitChars '\n' "no geometry here\n".toList, ¬ GeometryLine line) ∧
    takeScrrenshot ⟨"no geometry here\n", none⟩ none none
      = ⟨[Event.ffmpegStart (ffmpegArgs 0 0)], Go.ret (Except.ok ⟨ffmpegArgs 0 0⟩)⟩ ∧
    (ffmpegArgs 0 0).getD 3 "" = "0x0" ∧
    takeScrrenshot ⟨"", some "exit status 1"⟩ none none = ⟨[], Go.panic "exit status 1"⟩ :=
  ⟨not_geometryLine_of_none _ (by decide), by decide, by decide, by decide⟩

/-- C8, amended: for every `xrandr` output, `takeScrrenshot` returns an error
exactly when `cmd.StdoutPipe` or `cmd.Start` of ffmpeg fails: without starting
ffmpeg in the first case, after the attempt to start it in the second; when
both succeed it starts ffmpeg and returns the stream. An output without a line
matching `current <digits> x <digits>` is no error: ffmpeg is started with
width and height zero. On a tick with an active desktop an error that
`takeScrrenshot` returns is logged by the poll loop, which goes on with the
next tick. When the `xrandr` query itself fails, `takeScrrenshot` panics
without starting ffmpeg, and the poll loop ends in that panic. -/
theorem takeScrrenshot_error_paths (samba : _Samba) (user : String) (t : Tick)
    (ts : List Tick)
    (hactive : isDesktopActive t.listSessions t.showSession user = Go.ret true) :
    (∀ (output : String) (pipe start : Option String),
      (∃ e, (takeScrrenshot ⟨output, none⟩ pipe start).result = Go.ret (Except.error e)) ↔
        (pipe ≠ none ∨ start ≠ none)) ∧
    (∀ (output : String) (start : Option String) (e : String),
      takeScrrenshot ⟨output, none⟩ (some e) start = ⟨[], Go.ret (Except.error e)⟩) ∧
    (∀ (output : String) (e : String),
      ∃ args, takeScrrenshot ⟨output, none⟩ none (some e)
        = ⟨[Event.ffmpegStart args], Go.ret (Except.error e)⟩) ∧
    (∀ output : String,
      ∃ args, takeScrrenshot ⟨output, none⟩ none none
        = ⟨[Event.ffmpegStart args], Go.ret (Except.ok ⟨args⟩)⟩) ∧
    (∀ output : String,
      (∀ line ∈ splitChars '\n' output.toList, ¬ GeometryLine line) →
      takeScrrenshot ⟨output, none⟩ none none
        = ⟨[Event.ffmpegStart (ffmpegArgs 0 0)], Go.ret (Except.ok ⟨ffmpegArgs 0 0⟩)⟩) ∧
    (∀ e, (takeScrrenshot t.xrandr t.stdoutPipe t.start).result = Go.ret (Except.error e) →
      serve.loop samba user (t :: ts)
        = ⟨(takeScrrenshot t.xrandr t.stdoutPipe t.start).events ++
            Event.log ("Error taking screenshot: " ++ e) :: (serve.loop samba user ts).events,
          (serve.loop samba user ts).result⟩) ∧
    (∀ (output err : String) (pipe start : Option String),
      takeScrrenshot ⟨output, some err⟩ pipe start = ⟨[], Go.panic err⟩) ∧
    (∀ output err : String,
      serve.loop samba user ({ t with xrandr := ⟨output, some err⟩ } :: ts)
        = ⟨[], some err⟩) := by
  refine ⟨?_, ?_, ?_, ?_, ?_, ?_, ?_, ?_⟩
  · intro output pipe start
    unfold takeScrrenshot
    cases pipe <;> cases start <;> simp
  · intro output start e
    rfl
  · intro output e
    exact ⟨_, rfl⟩
  · intro output
    exact ⟨_, rfl⟩
  · intro output hno
    unfold takeScrrenshot
    simp only [screenSize_eq_zero _ hno]
  · intro e he
    rw [serve_loop_cons]
    simp only [hactive, he]
  · intro output err pipe start
    rfl
  · intro output err
    rw [serve_loop_cons]
    simp only [hactive]
    rfl

/-- The amended C8 applies to a tick without geometry on which ffmpeg cannot be
started, and to a tick with geometry. -/
theorem takeScrrenshot_error_paths_witness :
    ((∃ e, (takeScrrenshot ⟨sampleXrandr, none⟩ none none).result
        = Go.ret (Except.error e)) ↔ ((none : Option String) ≠ none ∨ (none : Option String) ≠ none)) ∧
    takeScrrenshot ⟨"no geometry here\n", none⟩ none none
      = ⟨[Event.ffmpegStart (ffmpegArgs 0 0)], Go.ret (Except.ok ⟨ffmpegArgs 0 0⟩)⟩ ∧
    serve.loop (serve.samba sampleConfig) "u"
        [noGeometryTick, goodTick]
      = ⟨[Event.ffmpegStart (ffmpegArgs 0 0), Event.log "Error taking screenshot: not found",
          Event.ffmpegStart (ffmpegArgs 4480 1440), Event.create "desk/2024-07-08T094417.png",
          Event.copy ⟨ffmpegArgs 4480 1440⟩, Event.closeFile,
          Event.closeReader ⟨ffmpegArgs 4480 1440⟩], none⟩ ∧
    serve.loop (serve.samba sampleConfig) "u"
        [{ noGeometryTick with xrandr := ⟨sampleXrandr, some "exit status 1"⟩ },
          goodTick]
      = ⟨[], some "exit status 1"⟩ :=
  have h := takeScrrenshot_error_paths (serve.samba sampleConfig) "u"
    noGeometryTick [goodTick] (by decide)
  ⟨h.1 sampleXrandr none none,
    h.2.2.2.2.1 "no geometry here\n" (not_geometryLine_of_none _ (by decide)),
    (h.2.2.2.2.2.1 "not found" (by decide)).trans (by decide),
    h.2.2.2.2.2.2.2 sampleXrandr "exit status 1"⟩

end RegularScreenshot
